import Mathlib

/-!
Verification development for the pavedjs parallel-coordinates library.

The definitions below are a shallow embedding of the selection/brushing core
of the library:

* JS numbers are modelled as rationals; the value space of a data cell
  (number, string, or the JS undefined obtained by reading a missing key)
  is `JSValue`.
* `DefaultAxis.isBrushed` (ParallelCoordinates.ts) becomes `axisIsBrushed`
  over an `DefaultAxisState` carrying the scale function, the pixel range
  and the current d3 brush selection (d3 brushSelection returns either
  null, modelled by none, or the pair of y pixel coordinates sorted in
  ascending order).
* The EXTEND/SHRINK classification in `DefaultAxis.setBrushHandler` becomes
  `classifyDirection`, the throttling in `DefaultAxis.throttleFunction`
  becomes a small state machine, the selection recomputation dispatch in
  `ParallelCoordinates.brush` becomes `brushPass`, and the free-form line
  brush of LineBrush.ts becomes `LineBrushState` with exact rational
  segment-intersection geometry standing for the path-intersection test of
  the external Raphael dependency.
* The data-preparation pipeline (data.ts: `insertIDs`,
  `deriveColumnMetaData`, `prepareData`) and the mutating entry point
  `ParallelCoordinates.setRows` are embedded as `Except`-valued functions
  over association-list rows.
-/

namespace Paved

/-- A JS value stored in a data cell: a (finite) number, a string, or the
* undefined obtained by reading an absent key. The "NaN" sentinel of the
library is the string "NaN". -/
inductive JSValue where
  | num (q : ℚ)
  | str (s : String)
  | undef
deriving DecidableEq, Repr

/-- A data row is a JS object: an association list from keys to values,
read by first occurrence of the key. -/
abbrev DataRow := List (String × JSValue)

/-- Reading row[key]: the first binding of the key, or undefined. -/
def getValue : DataRow → String → JSValue
  | [], _ => .undef
  | (k, v) :: rest, key => if k = key then v else getValue rest key

/-- The JS `key in row` test. -/
def hasKey : DataRow → String → Bool
  | [], _ => false
  | (k, _) :: rest, key => k = key || hasKey rest key

/-- Number(x.toFixed(6)): rounding to six decimal places, used by
`DefaultAxis.isBrushed` before comparing pixel coordinates. -/
def round6 (q : ℚ) : ℚ := (round (q * 1000000) : ℚ) / 1000000

/-- types.ts BRUSHING_DIRECTION. -/
inductive BRUSHING_DIRECTION where
  | EXTEND
  | SHRINK
deriving DecidableEq, Repr

/-- types.ts ATTRIBUTE_TYPE. -/
inductive ATTRIBUTE_TYPE where
  | NOMINAL
  | NUMERICAL
deriving DecidableEq, Repr

/-- d3 scaleLinear().domain([dmin, dmax]).range([r0, r1]) applied to a
domain value (NumericalAxisScaleImpl.domainToRange). A degenerate domain
maps every value to the midpoint of the range, as d3 normalize does.
Non-numeric inputs have no pixel image in the model (the library only ever
reaches the comparison for values with a defined image; a string fed to the
d3 linear scale yields NaN and every NaN comparison is false, which the
caller `axisIsBrushed` reproduces by returning false on none). -/
def linearDomainToRange (dmin dmax r0 r1 : ℚ) : JSValue → Option ℚ
  | .num q => some (if dmax = dmin then r0 + (r1 - r0) / 2
      else r0 + (q - dmin) * (r1 - r0) / (dmax - dmin))
  | _ => none

/-- Index of a name in a scale domain (first occurrence). -/
def domainIndex : List String → String → Option ℕ
  | [], _ => none
  | d :: rest, name => if d = name then some 0 else (domainIndex rest name).map (· + 1)

/-- d3 scalePoint with outer padding p and the default align 1/2:
step = (r1 - r0) / max 1 (n - 1 + 2p), first position
r0 + (r1 - r0 - step * (n - 1)) / 2, then evenly spaced by step.
Names outside the domain have no position (d3 returns undefined). -/
def scalePointPos (domain : List String) (r0 r1 p : ℚ) (name : String) : Option ℚ :=
  match domainIndex domain name with
  | none => none
  | some i =>
    let n : ℚ := domain.length
    let step := (r1 - r0) / max 1 (n - 1 + 2 * p)
    let startPos := r0 + (r1 - r0 - step * (n - 1)) / 2
    some (startPos + step * (i : ℚ))

/-- NominalAxisScaleImpl.domainToRange: a point scale with padding 1/2 over
the ordered category list. -/
def nominalDomainToRange (domain : List String) (r0 r1 : ℚ) : JSValue → Option ℚ
  | .str s => scalePointPos domain r0 r1 (1/2) s
  | _ => none

/-- The state of a DefaultAxis that the membership test depends on: the
attribute name, the scale (domainToRange), the pixel range set by setScale
(range[0] = canvasHeight, range[1] = 0 in the library), and the current d3
brush selection. d3 brushSelection is null (none) when there is no
selection on this axis, otherwise the pair (brushRange[0], brushRange[1])
of y pixels with brushRange[0] <= brushRange[1]. -/
structure DefaultAxisState where
  name : String
  scale : JSValue → Option ℚ
  range : ℚ × ℚ
  selection : Option (ℚ × ℚ)

/-- DefaultAxis.isBrushed. With no selection the test is true. With a
selection, the "NaN" sentinel is never brushed; otherwise the value's pixel
image (false if undefined) is compared against the selection bounds, both
sides rounded to 6 decimals: brushedRange[0] >= rangeVal >= brushedRange[1]
where brushedRange = [brushRange[1], brushRange[0]]. -/
def axisIsBrushed (ax : DefaultAxisState) (domainValue : JSValue) : Bool :=
  match ax.selection with
  | none => true
  | some (lo, hi) =>
    if domainValue = .str "NaN" then false
    else
      match ax.scale domainValue with
      | some rangeVal =>
        decide (round6 hi ≥ round6 rangeVal) && decide (round6 rangeVal ≥ round6 lo)
      | none => false

/-- Number(attr): the y attribute of a bound label, a number when the
attribute has been set and null before; Number(null) = 0. -/
def jsNumberAttr : Option ℚ → ℚ
  | none => 0
  | some q => q

/-- The EXTEND/SHRINK classification of DefaultAxis.setBrushHandler's brush
listener. currUpperAttr/currLowerAttr are the y attributes of the .upper
and .lower labels (the previous brushRange[0] and brushRange[1], absent
before the first event), nextUpper/nextLower are brushRange[0] and
brushRange[1] of the current event. direction stays undefined (none) when
the interval width is unchanged. The TS also guards
(currUpper === null || currLower === null), but currUpper is the result of
Number(...), a number, and a strict comparison of a number with null is
always false, so that branch can never be taken and is omitted here. -/
def classifyDirection (currUpperAttr currLowerAttr : Option ℚ)
    (nextUpper nextLower : ℚ) : Option BRUSHING_DIRECTION :=
  let currUpper := jsNumberAttr currUpperAttr
  let currLower := jsNumberAttr currLowerAttr
  if currUpper - currLower ≠ nextUpper - nextLower then
    some (if nextUpper > currUpper ∨ nextLower < currLower then .SHRINK else .EXTEND)
  else
    none

/-- The per-axis throttling state of DefaultAxis: timerId is undefined when
no setTimeout is pending, otherwise the pending timer together with the
direction argument captured by its closure when it was scheduled. -/
structure ThrottleState where
  timerId : Option (Option BRUSHING_DIRECTION)
deriving DecidableEq, Repr

/-- The idle throttling state (timerId undefined). -/
def throttleIdle : ThrottleState := { timerId := none }

/-- An event seen by the throttling machinery: a call of throttleFunction
with a direction argument, or the expiry of the pending setTimeout. -/
inductive ThrottleEvent where
  | call (dir : Option BRUSHING_DIRECTION)
  | fire
deriving DecidableEq, Repr

/-- One step of DefaultAxis.throttleFunction and of its timer. A call while
a timer is pending returns immediately (the new direction is discarded); a
call while idle schedules the timer, capturing the direction, and performs
no invocation itself. The timer's expiry invokes the brush handler with the
captured direction and resets timerId. The step yields the new state and
the list of brush-handler invocations it performed. -/
def throttleStep (s : ThrottleState) : ThrottleEvent → ThrottleState × List (Option BRUSHING_DIRECTION)
  | .call dir =>
    if s.timerId.isSome then (s, [])
    else ({ timerId := some dir }, [])
  | .fire =>
    match s.timerId with
    | some dir => ({ timerId := none }, [dir])
    | none => (s, [])

/-- Run a sequence of throttle events, collecting every brush-handler
invocation in order. -/
def throttleRun (s : ThrottleState) : List ThrottleEvent → ThrottleState × List (Option BRUSHING_DIRECTION)
  | [] => (s, [])
  | e :: es =>
    let (s1, out) := throttleStep s e
    let (s2, outs) := throttleRun s1 es
    (s2, out ++ outs)

/-- A point in canvas pixel space (LineBrush.ts geometry helper). -/
structure Point where
  x : ℚ
  y : ℚ
deriving DecidableEq, Repr

/-- Cross product of the vectors o->a and o->b. -/
def cross3 (o a b : Point) : ℚ :=
  (a.x - o.x) * (b.y - o.y) - (a.y - o.y) * (b.x - o.x)

/-- Whether q, known collinear with segment p-r, lies on that segment. -/
def onSegment (p q r : Point) : Bool :=
  decide (min p.x r.x ≤ q.x) && decide (q.x ≤ max p.x r.x) &&
  decide (min p.y r.y ≤ q.y) && decide (q.y ≤ max p.y r.y)

/-- Exact intersection test of segments p1-p2 and q1-q2. -/
def segmentsIntersect (p1 p2 q1 q2 : Point) : Bool :=
  let d1 := cross3 q1 q2 p1
  let d2 := cross3 q1 q2 p2
  let d3 := cross3 p1 p2 q1
  let d4 := cross3 p1 p2 q2
  if ((d1 > 0 ∧ d2 < 0) ∨ (d1 < 0 ∧ d2 > 0)) ∧ ((d3 > 0 ∧ d4 < 0) ∨ (d3 < 0 ∧ d4 > 0)) then
    true
  else if d1 = 0 ∧ onSegment q1 p1 q2 then true
  else if d2 = 0 ∧ onSegment q1 p2 q2 then true
  else if d3 = 0 ∧ onSegment p1 q1 p2 then true
  else if d4 = 0 ∧ onSegment p1 q2 p2 then true
  else false

/-- The consecutive segments of a polyline path. -/
def pathSegments : List Point → List (Point × Point)
  | [] => []
  | [_] => []
  | a :: b :: rest => (a, b) :: pathSegments (b :: rest)

/-- Modelled from the spec: Raphael.pathIntersection (an external library
dependency, not repository code) applied to a straight-polyline path and a
straight brush line returns a nonempty intersection list exactly when the
brush segment geometrically intersects the rendered path. -/
def pathIntersectsSegment (path : List Point) (a b : Point) : Bool :=
  (pathSegments path).any fun s => segmentsIntersect s.1 s.2 a b

/-- The closed-over state of the lineBrush closure in LineBrush.ts:
the started/ended/visible flags and the two endpoints (both initialised to
the origin). -/
structure LineBrushState where
  started : Bool
  ended : Bool
  visible : Bool
  startP : Point
  endP : Point
deriving DecidableEq, Repr

/-- Initial line-brush state: flags false, endpoints at the origin. -/
def lineBrushInit : LineBrushState :=
  { started := false, ended := false, visible := false
    startP := { x := 0, y := 0 }, endP := { x := 0, y := 0 } }

/-- brush.process: the first click sets both endpoints and makes the brush
visible; the second click commits the end point; further clicks change no
closed-over state (they only re-render). -/
def lineBrushProcess (s : LineBrushState) (position : Point) : LineBrushState :=
  if !s.started then
    { started := true, ended := false, visible := true
      startP := position, endP := position }
  else if !s.ended then
    { s with ended := true, endP := position }
  else s

/-- brush.cancel: resets the three flags; the endpoint coordinates are left
as they are (the brush is merely hidden). -/
def lineBrushCancel (s : LineBrushState) : LineBrushState :=
  { s with started := false, ended := false, visible := false }

/-- brush.brushed: getPath() is null unless the brush is visible, and a
null brush path selects every path; otherwise the path descriptors are
intersected (both rendered paths always carry a descriptor). -/
def lineBrushBrushed (s : LineBrushState) (path : List Point) : Bool :=
  if s.visible then pathIntersectsSegment path s.startP s.endP else true

/-- DefaultAxis.clearBrush: this.brush.move(this.brushGroup, null) removes
the selection. -/
def defaultClearBrush (ax : DefaultAxisState) : DefaultAxisState :=
  { ax with selection := none }

/-- ObjectiveAxis.clearBrush (override): moves the brush to the full pixel
range [range[1], range[0]] instead of removing it. -/
def objectiveClearBrush (ax : DefaultAxisState) : DefaultAxisState :=
  { ax with selection := some (ax.range.2, ax.range.1) }

/-- A rendered polyline in the foreground group: its bound datum, the
points of its path (the d attribute), and whether it currently carries the
brushed class. -/
structure PolylineNode where
  datum : DataRow
  pathD : List Point
  brushed : Bool

/-- MultiCriteriaParallelCoordinates.isBrushed: the conjunction over every
axis of DefaultAxis.isBrushed on the item's value for that axis
(ParallelCoordinates.isBrushed), AND-ed with the line brush's verdict on
the item's rendered path. -/
def mcIsBrushed (axes : List DefaultAxisState) (lb : LineBrushState)
    (row : DataRow) (pathD : List Point) : Bool :=
  (axes.all fun ax => axisIsBrushed ax (getValue row ax.name)) && lineBrushBrushed lb pathD

/-- ParallelCoordinates.brush: the selection recomputation dispatch. Under
an EXTEND hint only polylines without the brushed class are re-tested (and
marked when the full test now succeeds); under a SHRINK hint only polylines
with the brushed class are re-tested (and unmarked when the full test now
fails); without a hint every polyline is re-tested. -/
def brushPass (isB : DataRow → List Point → Bool) (dir : Option BRUSHING_DIRECTION)
    (nodes : List PolylineNode) : List PolylineNode :=
  match dir with
  | some .EXTEND =>
    nodes.map fun nd =>
      if !nd.brushed then (if isB nd.datum nd.pathD then { nd with brushed := true } else nd)
      else nd
  | some .SHRINK =>
    nodes.map fun nd =>
      if nd.brushed then (if !(isB nd.datum nd.pathD) then { nd with brushed := false } else nd)
      else nd
  | none =>
    nodes.map fun nd => { nd with brushed := isB nd.datum nd.pathD }

/-- The statistics of a column: min/max for a numerical column (none models
the Infinity resp. -Infinity that Math.min/Math.max yield on an empty
list of valid values), or the ordered unique category list for a nominal
column. -/
inductive Statistics where
  | numerical (statMin statMax : Option ℚ)
  | nominal (cats : List String)
deriving DecidableEq, Repr

/-- A Dimension / Objective descriptor (types.ts): name, derived attribute
type and statistics, and the optional user metadata (obj makes the
descriptor an Objective). -/
structure Dimension where
  name : String
  attr_type : ATTRIBUTE_TYPE
  statistics : Statistics
  obj : Option String := none
  unit : Option String := none
  color : Option String := none
deriving DecidableEq, Repr

/-- typeof val === "number" || val === "NaN": the test of the NUMERICAL
branch of deriveColumnMetaData. -/
def isNumOrNaN : JSValue → Bool
  | .num _ => true
  | .str s => s = "NaN"
  | .undef => false

/-- typeof val === "string": the test of the NOMINAL branch. -/
def isStrVal : JSValue → Bool
  | .str _ => true
  | _ => false

/-- The numeric values of a column after the Number conversion and the
isNaN filter: "NaN" sentinels convert to Number.NaN and are dropped, the
finite numbers remain. -/
def numericValues (vals : List JSValue) : List ℚ :=
  vals.filterMap fun v => match v with | .num q => some q | _ => none

/-- The string values of a column (the NOMINAL branch casts every value to
string once they all passed the string test). -/
def strValues (vals : List JSValue) : List String :=
  vals.filterMap fun v => match v with | .str s => some s | _ => none

/-- Math.min over a list; none models the Infinity returned on an empty
list. -/
def jsMathMin : List ℚ → Option ℚ
  | [] => none
  | q :: rest => some (match jsMathMin rest with | none => q | some m => min q m)

/-- Math.max over a list; none models the -Infinity returned on an empty
list. -/
def jsMathMax : List ℚ → Option ℚ
  | [] => none
  | q :: rest => some (match jsMathMax rest with | none => q | some m => max q m)

/-- self.indexOf(value) === index: keep the first occurrence of every
string. -/
def uniqueFirstAux (seen : List String) : List String → List String
  | [] => []
  | x :: xs => if x ∈ seen then uniqueFirstAux seen xs else x :: uniqueFirstAux (x :: seen) xs

/-- The unique categorical values of a nominal column, first occurrences in
order. -/
def uniqueFirst (l : List String) : List String := uniqueFirstAux [] l

/-- The body of the deriveColumnMetaData loop for one column: derive the
attribute type and statistics from the column's values, or throw on a
mixture of value types. -/
def deriveColumn (rows : List DataRow) (name : String) : Except String Dimension :=
  let attr_values := rows.map fun row => getValue row name
  if attr_values.all isNumOrNaN then
    let nums := numericValues attr_values
    .ok { name := name, attr_type := .NUMERICAL
          statistics := .numerical (jsMathMin nums) (jsMathMax nums) }
  else if attr_values.all isStrVal then
    .ok { name := name, attr_type := .NOMINAL
          statistics := .nominal (uniqueFirst (strValues attr_values)) }
  else
    .error ("PAVEDJS: Could not determine attribute type and domain of " ++ name ++ ".")

/-- A forEach loop with throw: map a fallible function over a list, the
first error aborting the whole computation. -/
def mapExcept (f : α → Except ε β) : List α → Except ε (List β)
  | [] => .ok []
  | x :: xs =>
    match f x with
    | .error e => .error e
    | .ok y =>
      match mapExcept f xs with
      | .error e => .error e
      | .ok ys => .ok (y :: ys)

/-- data.ts deriveColumnMetaData over a list of column names. -/
def deriveColumnMetaData (columns : List String) (rows : List DataRow) :
    Except String (List Dimension) :=
  mapExcept (deriveColumn rows) columns

/-- "ID" in row || "id" in row || "Id" in row. -/
def hasIDKey (row : DataRow) : Bool :=
  hasKey row "ID" || hasKey row "id" || hasKey row "Id"

/-- The indexed forEach of insertIDs: a row without any ID key receives
row.ID = i (a fresh property, appended in insertion order). -/
def insertIDsAux (i : ℕ) : List DataRow → List DataRow
  | [] => []
  | row :: rest =>
    (if hasIDKey row then row else row ++ [("ID", .num i)]) :: insertIDsAux (i + 1) rest

/-- data.ts insertIDs: whether any ID was generated, and the updated
rows. -/
def insertIDs (rows : List DataRow) : Bool × List DataRow :=
  (rows.any fun row => !hasIDKey row, insertIDsAux 0 rows)

/-- data.ts initColumnsFromRows: the keys of the first row, in order. -/
def initColumnsFromRows : List DataRow → List String
  | [] => []
  | row :: _ => row.map Prod.fst

/-- data.ts prepareData: initialise the columns from the first row, insert
IDs where missing (prepending the generated ID column), and derive the
column metadata. -/
def prepareData (rows : List DataRow) : Except String (List Dimension × List DataRow) :=
  let columns := initColumnsFromRows rows
  let generated := (insertIDs rows).1
  let modifiedRows := (insertIDs rows).2
  let columns2 := if generated then "ID" :: columns else columns
  match deriveColumnMetaData columns2 modifiedRows with
  | .ok cols => .ok (cols, modifiedRows)
  | .error e => .error e

/-- The state of a ParallelCoordinates instance that setRows touches: the
stored rows, the dimension descriptors, and the axis order (the xScale
domain maintained by updateAxes). -/
structure PCState where
  data : List DataRow
  dimensions : List Dimension
  axisOrder : List String
deriving Repr

/-- The first schema violation of the setRows forEach: a derived column
whose name matches an existing dimension but whose attribute type
differs. -/
def firstTypeError (oldDims : List Dimension) : List Dimension → Option String
  | [] => none
  | col :: rest =>
    match oldDims.find? fun d => d.name = col.name with
    | some existingDim =>
      if col.attr_type ≠ existingDim.attr_type then
        some ("PAVEDJS: setRows must not change attribute type from numerical to nominal or vice versa ("
          ++ col.name ++ ").")
      else firstTypeError oldDims rest
    | none => firstTypeError oldDims rest

/-- The metadata carry-over of setRows: obj, unit and color of an existing
dimension of the same name are copied onto the new column when the new
column does not supply them. -/
def carryForward (oldDims : List Dimension) (col : Dimension) : Dimension :=
  match oldDims.find? fun d => d.name = col.name with
  | some existingDim =>
    { col with
      obj := match col.obj with | some o => some o | none => existingDim.obj
      unit := match col.unit with | some u => some u | none => existingDim.unit
      color := match col.color with | some c => some c | none => existingDim.color }
  | none => col

/-- ParallelCoordinates.setRows followed by setDimensions, as a transformer
of PCState. prepareData runs first; its result is assigned to this.data
before the type check, so a schema violation thrown by the forEach leaves
the state with the new rows but the old dimensions and axis order. On
success setDimensions checks that the dimensions are a subset of the row
keys and updateAxes reassigns the xScale domain to the new dimension
names. The returned Option String is the error thrown, none on success;
no caller of setRows catches it. -/
def setRows (st : PCState) (rows : List DataRow) : PCState × Option String :=
  match prepareData rows with
  | .error e => (st, some e)
  | .ok (columns, modifiedRows) =>
    let st1 := { st with data := modifiedRows }
    match firstTypeError st.dimensions columns with
    | some e => (st1, some e)
    | none =>
      let cols2 := columns.map (carryForward st.dimensions)
      if cols2.all fun d => st1.data.all fun row => hasKey row d.name then
        ({ st1 with dimensions := cols2, axisOrder := cols2.map (·.name) }, none)
      else
        (st1, some "PAVEDJS: Could not set dimensions due to a mismatch between dimensions and data points.")

/-- The state of the axis-layout/drag model: the ordered dimension names,
the dragging map, the xScale domain, and the canvas and chart widths. -/
structure PCDragState where
  dimensions : List String
  dragging : List (String × ℚ)
  xScaleDomain : List String
  canvasWidth : ℚ
  width : ℚ

/-- Reading this.dragging[dim] (undefined when the axis is not mid-drag). -/
def lookupDrag : List (String × ℚ) → String → Option ℚ
  | [], _ => none
  | (k, v) :: rest, key => if k = key then some v else lookupDrag rest key

/-- Assigning this.dragging[dim] = x. -/
def setDrag : List (String × ℚ) → String → ℚ → List (String × ℚ)
  | [], k, v => [(k, v)]
  | (k1, v1) :: rest, k, v =>
    if k1 = k then (k, v) :: rest else (k1, v1) :: setDrag rest k v

/-- ParallelCoordinates.position: the live drag position when the axis is
mid-drag, else the xScale position (a point scale with padding 0 over
[0, canvasWidth]). -/
def pcPosition (st : PCDragState) (dim : String) : Option ℚ :=
  match lookupDrag st.dragging dim with
  | some x => some x
  | none => scalePointPos st.xScaleDomain 0 st.canvasWidth 0 dim

/-- The sort key used by the drag handler's comparator: every dimension
name is in the xScale domain, so the default is never used. -/
def positionKey (st : PCDragState) (dim : String) : ℚ :=
  (pcPosition st dim).getD 0

/-- Stable insertion of a name into a list sorted by key ascending: the
inserted element precedes the elements of equal key that followed it, as
the stable Array.prototype.sort does. -/
def insertByKey (key : String → ℚ) (x : String) : List String → List String
  | [] => [x]
  | y :: ys => if key x ≤ key y then x :: y :: ys else y :: insertByKey key x ys

/-- Stable ascending sort by key (Array.prototype.sort with the numeric
comparator position(a) - position(b)). -/
def sortByKey (key : String → ℚ) : List String → List String
  | [] => []
  | x :: xs => insertByKey key x (sortByKey key xs)

/-- The drag handler of renderAxes: dragging[dim] is set to event.x clamped
to [0, options.width]; the dimension list is re-sorted by current effective
position (drag position for the dragged axis, scale position for the
rest); the xScale domain is reassigned to the new order. -/
def dragMove (st : PCDragState) (dim : String) (eventX : ℚ) : PCDragState :=
  let dragging2 := setDrag st.dragging dim (min st.width (max 0 eventX))
  let stMid := { st with dragging := dragging2 }
  let sorted := sortByKey (positionKey stMid) st.dimensions
  { stMid with dimensions := sorted, xScaleDomain := sorted }

/-- The drag-start handler: the drag anchor is the axis's current scale
position. -/
def dragStart (st : PCDragState) (dim : String) : PCDragState :=
  { st with dragging :=
      setDrag st.dragging dim ((scalePointPos st.xScaleDomain 0 st.canvasWidth 0 dim).getD 0) }

/-- A numerical axis as updateAxis builds it: domain [0, 100], pixel range
[300, 0], with an active selection [150, 300]. -/
def c2Axis : DefaultAxisState :=
  { name := "Speed", scale := linearDomainToRange 0 100 300 0
    range := (300, 0), selection := some (150, 300) }

/-- An objective axis before clearing: pixel range [300, 0] with some
narrow selection. -/
def c9Axis : DefaultAxisState :=
  { name := "Cost", scale := linearDomainToRange 0 100 300 0
    range := (300, 0), selection := some (10, 20) }

/-- A node bound to a datum whose value on the single axis is a plain
string outside the numerical domain: unselected while the axis brush
[150, 300] is active. -/
def c1Node : PolylineNode :=
  { datum := [("Speed", JSValue.str "x")], pathD := [{ x := 0, y := 0 }, { x := 1, y := 1 }]
    brushed := false }

/-- The prior consistent state for the setRows experiments: two numerical
dimensions ID and X, matching stored rows, axis order [ID, X]. -/
def c5OldState : PCState :=
  { data := [[("ID", JSValue.num 0), ("X", JSValue.num 1)]]
    dimensions :=
      [{ name := "ID", attr_type := .NUMERICAL, statistics := .numerical (some 0) (some 0) },
       { name := "X", attr_type := .NUMERICAL, statistics := .numerical (some 1) (some 1) }]
    axisOrder := ["ID", "X"] }

/-- A replacement dataset in which attribute X is now all strings. -/
def c5NewRows : List DataRow := [[("X", JSValue.str "a")]]

/-- The columns prepareData derives from c5NewRows: the generated ID column
and the now-nominal X column. -/
def c5Columns : List Dimension :=
  [{ name := "ID", attr_type := .NUMERICAL, statistics := .numerical (some 0) (some 0) },
   { name := "X", attr_type := .NOMINAL, statistics := .nominal ["a"] }]

/-- The rows prepareData returns for c5NewRows, with the generated ID. -/
def c5ModifiedRows : List DataRow := [[("X", JSValue.str "a"), ("ID", JSValue.num 0)]]

/-- A drag-model state with the default chart geometry: three axes over a
990-pixel canvas (chart width 1100 minus left padding 65 and right padding
45), no axis mid-drag. -/
def c7State : PCDragState :=
  { dimensions := ["A", "B", "C"], dragging := [], xScaleDomain := ["A", "B", "C"]
    canvasWidth := 990, width := 1100 }

/-! ## Theorems -/

/-- C2: DefaultAxis.isBrushed returns true for every value when the axis
has no active brush selection; with an active selection [lo, hi] (a d3
brush selection satisfies lo <= hi) the invalid marker "NaN" is never
selected, and any other value v with pixel image p is selected exactly when
round6 (min lo hi) <= round6 p <= round6 (max lo hi). -/
theorem C2_isBrushed_characterization (ax : DefaultAxisState) :
    (ax.selection = none → ∀ v, axisIsBrushed ax v = true) ∧
    (∀ lo hi, ax.selection = some (lo, hi) → lo ≤ hi →
      axisIsBrushed ax (.str "NaN") = false ∧
      ∀ v p, v ≠ JSValue.str "NaN" → ax.scale v = some p →
        (axisIsBrushed ax v = true ↔
          round6 (min lo hi) ≤ round6 p ∧ round6 p ≤ round6 (max lo hi))) := by
  constructor
  · intro h v
    simp [axisIsBrushed, h]
  · intro lo hi hsel hle
    constructor
    · simp [axisIsBrushed, hsel]
    · intro v p hv hp
      rw [min_eq_left hle, max_eq_right hle]
      simp [axisIsBrushed, hsel, hv, hp, ge_iff_le, and_comm]

/-- Witness for C2 at a concrete axis: "NaN" is rejected and the value 50
(pixel image 150) lies inside the selection [150, 300]. -/
theorem C2_isBrushed_witness :
    axisIsBrushed c2Axis (.str "NaN") = false ∧ axisIsBrushed c2Axis (.num 50) = true := by
  have h := (C2_isBrushed_characterization c2Axis).2 150 300 rfl (by norm_num)
  refine ⟨h.1, ?_⟩
  refine (h.2 (.num 50) 150 (by decide) ?_).mpr ?_
  · show linearDomainToRange 0 100 300 0 (.num 50) = some 150
    norm_num [linearDomainToRange]
  · rw [min_eq_left (by norm_num : (150 : ℚ) ≤ 300), max_eq_right (by norm_num : (150 : ℚ) ≤ 300)]
    norm_num [round6, round_eq]

/-- C9: ObjectiveAxis.clearBrush moves the brush to the full pixel range
[range[1], range[0]] instead of removing the selection, so the axis still
has an active selection, its membership test still performs the rounded
interval comparison, and the invalid marker "NaN" is still rejected —
whereas DefaultAxis.clearBrush removes the selection entirely, after which
"NaN" is selected again. -/
theorem C9_objective_clear (ax : DefaultAxisState) :
    (objectiveClearBrush ax).selection = some (ax.range.2, ax.range.1) ∧
    ((objectiveClearBrush ax).selection).isSome = true ∧
    axisIsBrushed (objectiveClearBrush ax) (.str "NaN") = false ∧
    (∀ v p, v ≠ JSValue.str "NaN" → ax.scale v = some p →
      (axisIsBrushed (objectiveClearBrush ax) v = true ↔
        round6 ax.range.2 ≤ round6 p ∧ round6 p ≤ round6 ax.range.1)) ∧
    (defaultClearBrush ax).selection = none ∧
    axisIsBrushed (defaultClearBrush ax) (.str "NaN") = true := by
  refine ⟨rfl, rfl, ?_, ?_, rfl, rfl⟩
  · simp [axisIsBrushed, objectiveClearBrush]
  · intro v p hv hp
    simp [axisIsBrushed, objectiveClearBrush, hv, hp, ge_iff_le, and_comm]

/-- Witness for C9 at a concrete axis: after the objective clear the
selection spans [0, 300], "NaN" stays unselected while the value 50 (pixel
image 150) is selected; after the default clear "NaN" is selected. -/
theorem C9_objective_clear_witness :
    (objectiveClearBrush c9Axis).selection = some (0, 300) ∧
    axisIsBrushed (objectiveClearBrush c9Axis) (.str "NaN") = false ∧
    axisIsBrushed (objectiveClearBrush c9Axis) (.num 50) = true ∧
    axisIsBrushed (defaultClearBrush c9Axis) (.str "NaN") = true := by
  have h := C9_objective_clear c9Axis
  refine ⟨h.1, h.2.2.1, ?_, h.2.2.2.2.2⟩
  refine (h.2.2.2.1 (.num 50) 150 (by decide) ?_).mpr ?_
  · show linearDomainToRange 0 100 300 0 (.num 50) = some 150
    norm_num [linearDomainToRange]
  · show round6 (300, (0 : ℚ)).2 ≤ round6 150 ∧ round6 150 ≤ round6 (300, (0 : ℚ)).1
    norm_num [round6, round_eq]

/-- Counterexample for C3: from the existing extent [100, 200], the new
extent [90, 180] moves the upper bound outward (90 < 100), so the claim
classifies EXTEND; the code classifies SHRINK because the lower bound moved
inward (180 < 200) and the inward test takes precedence. -/
theorem C3_classification_counterexample :
    (100 : ℚ) - 200 ≠ (90 : ℚ) - 180 ∧
    (90 : ℚ) < 100 ∧
    classifyDirection (some 100) (some 200) 90 180 = some .SHRINK ∧
    classifyDirection (some 100) (some 200) 90 180 ≠ some .EXTEND := by
  refine ⟨by norm_num, by norm_num, by norm_num [classifyDirection, jsNumberAttr], ?_⟩
  norm_num [classifyDirection, jsNumberAttr]
  decide

/-- C3 (amended): when the labels hold a previous extent [cu, cl], the
brush listener classifies SHRINK iff the width changed and at least one
bound moved inward (nu > cu or nl < cl), EXTEND iff the width changed and
no bound moved inward, and yields no direction iff the width is unchanged;
in particular [100, 200] to [90, 210] is EXTEND, to [110, 190] is SHRINK,
and the translation to [120, 220] yields no direction. -/
theorem C3_classification (cu cl nu nl : ℚ) :
    (classifyDirection (some cu) (some cl) nu nl = some .SHRINK ↔
      cu - cl ≠ nu - nl ∧ (nu > cu ∨ nl < cl)) ∧
    (classifyDirection (some cu) (some cl) nu nl = some .EXTEND ↔
      cu - cl ≠ nu - nl ∧ nu ≤ cu ∧ cl ≤ nl) ∧
    (classifyDirection (some cu) (some cl) nu nl = none ↔ cu - cl = nu - nl) ∧
    classifyDirection (some 100) (some 200) 90 210 = some .EXTEND ∧
    classifyDirection (some 100) (some 200) 110 190 = some .SHRINK ∧
    classifyDirection (some 100) (some 200) 120 220 = none := by
  refine ⟨?_, ?_, ?_, by norm_num [classifyDirection, jsNumberAttr],
    by norm_num [classifyDirection, jsNumberAttr], by norm_num [classifyDirection, jsNumberAttr]⟩
  · constructor
    · intro h
      by_cases hw : cu - cl = nu - nl
      · simp [classifyDirection, jsNumberAttr, hw] at h
      · by_cases hd : nu > cu ∨ nl < cl
        · exact ⟨hw, hd⟩
        · simp [classifyDirection, jsNumberAttr, hw, hd] at h
    · rintro ⟨hw, hd⟩
      simp [classifyDirection, jsNumberAttr, hw, hd]
  · constructor
    · intro h
      by_cases hw : cu - cl = nu - nl
      · simp [classifyDirection, jsNumberAttr, hw] at h
      · by_cases hd : nu > cu ∨ nl < cl
        · simp [classifyDirection, jsNumberAttr, hw, hd] at h
        · push_neg at hd
          exact ⟨hw, hd.1, hd.2⟩
    · rintro ⟨hw, h1, h2⟩
      have hd : ¬(nu > cu ∨ nl < cl) := by push_neg; exact ⟨h1, h2⟩
      simp [classifyDirection, jsNumberAttr, hw, hd]
  · constructor
    · intro h
      by_cases hw : cu - cl = nu - nl
      · exact hw
      · simp [classifyDirection, jsNumberAttr, hw] at h
    · intro hw
      simp [classifyDirection, jsNumberAttr, hw]

/-- While a timer is pending, every further throttleFunction call returns
immediately: no invocation is performed and the captured direction is
unchanged. -/
theorem throttleRun_calls_pending (d : Option BRUSHING_DIRECTION)
    (ds : List (Option BRUSHING_DIRECTION)) :
    throttleRun { timerId := some d } (ds.map ThrottleEvent.call) =
      ({ timerId := some d }, []) := by
  induction ds with
  | nil => rfl
  | cons d2 rest ih => simp [throttleRun, throttleStep, ih]

/-- Running a concatenation of throttle events runs the two parts in
sequence and concatenates their invocations. -/
theorem throttleRun_append (s : ThrottleState) (l1 l2 : List ThrottleEvent) :
    throttleRun s (l1 ++ l2) =
      ((throttleRun (throttleRun s l1).1 l2).1,
       (throttleRun s l1).2 ++ (throttleRun (throttleRun s l1).1 l2).2) := by
  induction l1 generalizing s with
  | nil => simp [throttleRun]
  | cons e es ih => simp [throttleRun, ih]

/-- C4 (amended): starting from an idle axis, the first brush event only
schedules the timer (no invocation fires immediately), every further call
within the window is suppressed with its direction discarded, and when the
timer fires exactly one invocation runs — carrying the direction captured
by the first call of the window, not the most recent one — after which the
axis is idle again. timerId is a single optional slot guarded by an isSome
check, so at most one timer is pending per axis. -/
theorem C4_throttle_trailing (d1 : Option BRUSHING_DIRECTION)
    (ds : List (Option BRUSHING_DIRECTION)) :
    throttleRun throttleIdle (ThrottleEvent.call d1 :: ds.map ThrottleEvent.call) =
      ({ timerId := some d1 }, []) ∧
    throttleRun throttleIdle
        ((ThrottleEvent.call d1 :: ds.map ThrottleEvent.call) ++ [ThrottleEvent.fire]) =
      (throttleIdle, [d1]) := by
  have hburst : throttleRun throttleIdle (ThrottleEvent.call d1 :: ds.map ThrottleEvent.call) =
      ({ timerId := some d1 }, []) := by
    simp [throttleRun, throttleStep, throttleIdle, throttleRun_calls_pending]
  refine ⟨hburst, ?_⟩
  rw [throttleRun_append, hburst]
  rfl

/-- Counterexample for C4: the first call after an idle period does not
fire immediately (it performs no invocation), and the trailing invocation
carries the parameters of the first suppressed-window event, not of the
most recent one. -/
theorem C4_throttle_counterexample :
    (throttleRun throttleIdle [ThrottleEvent.call (some .EXTEND)]).2 = [] ∧
    (throttleRun throttleIdle
        [ThrottleEvent.call (some .EXTEND), ThrottleEvent.call (some .SHRINK),
         ThrottleEvent.fire]).2 = [some .EXTEND] ∧
    some BRUSHING_DIRECTION.EXTEND ≠ some BRUSHING_DIRECTION.SHRINK := by
  decide

/-- A value returned by jsMathMin is a member of the list and a lower bound
for it. -/
theorem jsMathMin_mem_le (l : List ℚ) (m : ℚ) (h : jsMathMin l = some m) :
    m ∈ l ∧ ∀ q ∈ l, m ≤ q := by
  induction l generalizing m with
  | nil => simp [jsMathMin] at h
  | cons x xs ih =>
    rw [jsMathMin] at h
    cases hx : jsMathMin xs with
    | none =>
      rw [hx] at h
      simp only [Option.some.injEq] at h
      have hxs : xs = [] := by
        cases xs with
        | nil => rfl
        | cons y ys => simp [jsMathMin] at hx
      subst hxs
      subst h
      simp
    | some m2 =>
      rw [hx] at h
      simp only [Option.some.injEq] at h
      obtain ⟨hmem, hle⟩ := ih m2 hx
      subst h
      constructor
      · rcases min_choice x m2 with hc | hc <;> rw [hc]
        · exact List.mem_cons_self x xs
        · exact List.mem_cons_of_mem x hmem
      · intro q hq
        rcases List.mem_cons.mp hq with hq | hq
        · rw [hq]; exact min_le_left x m2
        · exact le_trans (min_le_right x m2) (hle q hq)

/-- A value returned by jsMathMax is a member of the list and an upper
bound for it. -/
theorem jsMathMax_mem_le (l : List ℚ) (m : ℚ) (h : jsMathMax l = some m) :
    m ∈ l ∧ ∀ q ∈ l, q ≤ m := by
  induction l generalizing m with
  | nil => simp [jsMathMax] at h
  | cons x xs ih =>
    rw [jsMathMax] at h
    cases hx : jsMathMax xs with
    | none =>
      rw [hx] at h
      simp only [Option.some.injEq] at h
      have hxs : xs = [] := by
        cases xs with
        | nil => rfl
        | cons y ys => simp [jsMathMax] at hx
      subst hxs
      subst h
      simp
    | some m2 =>
      rw [hx] at h
      simp only [Option.some.injEq] at h
      obtain ⟨hmem, hle⟩ := ih m2 hx
      subst h
      constructor
      · rcases max_choice x m2 with hc | hc <;> rw [hc]
        · exact List.mem_cons_self x xs
        · exact List.mem_cons_of_mem x hmem
      · intro q hq
        rcases List.mem_cons.mp hq with hq | hq
        · rw [hq]; exact le_max_left x m2
        · exact le_trans (hle q hq) (le_max_right x m2)

/-- Counterexample for C6: a column consisting solely of the invalid marker
"NaN" has every value a string, yet it is classified NUMERICAL (with empty
statistics) by the first branch, not NOMINAL. -/
theorem C6_derive_counterexample :
    (([[("A", JSValue.str "NaN")]] : List DataRow).map fun row => getValue row "A").all
        isStrVal = true ∧
    deriveColumn [[("A", JSValue.str "NaN")]] "A" =
      .ok { name := "A", attr_type := .NUMERICAL, statistics := .numerical none none } ∧
    ATTRIBUTE_TYPE.NUMERICAL ≠ ATTRIBUTE_TYPE.NOMINAL := by
  exact ⟨by decide, by rfl, by decide⟩

/-- C6 (amended): a column derives as NUMERICAL iff every value is a number
or the invalid marker "NaN"; it derives as NOMINAL iff every value is a
string and not every value passed the numeric-or-marker test (in
particular, a column of markers only is NUMERICAL, not NOMINAL); any other
mixture throws; and the min/max statistics of a NUMERICAL column are the
least and greatest of the non-invalid values only. -/
theorem C6_derive_characterization (rows : List DataRow) (name : String) :
    ((∃ d, deriveColumn rows name = .ok d ∧ d.attr_type = .NUMERICAL) ↔
      (rows.map fun row => getValue row name).all isNumOrNaN = true) ∧
    ((∃ d, deriveColumn rows name = .ok d ∧ d.attr_type = .NOMINAL) ↔
      ((rows.map fun row => getValue row name).all isStrVal = true ∧
        ¬(rows.map fun row => getValue row name).all isNumOrNaN = true)) ∧
    ((∃ e, deriveColumn rows name = .error e) ↔
      (¬(rows.map fun row => getValue row name).all isNumOrNaN = true ∧
        ¬(rows.map fun row => getValue row name).all isStrVal = true)) ∧
    (∀ d mn mx, deriveColumn rows name = .ok d →
      d.statistics = .numerical (some mn) (some mx) →
      (mn ∈ numericValues (rows.map fun row => getValue row name) ∧
        ∀ q ∈ numericValues (rows.map fun row => getValue row name), mn ≤ q) ∧
      (mx ∈ numericValues (rows.map fun row => getValue row name) ∧
        ∀ q ∈ numericValues (rows.map fun row => getValue row name), q ≤ mx)) := by
  by_cases h1 : (rows.map fun row => getValue row name).all isNumOrNaN = true
  · refine ⟨by simp [deriveColumn, h1], by simp [deriveColumn, h1], by simp [deriveColumn, h1], ?_⟩
    intro d mn mx hok hstat
    simp only [deriveColumn, h1, if_true, Except.ok.injEq] at hok
    subst hok
    simp only [Statistics.numerical.injEq] at hstat
    exact ⟨jsMathMin_mem_le _ mn (by rw [hstat.1]), jsMathMax_mem_le _ mx (by rw [hstat.2])⟩
  · by_cases h2 : (rows.map fun row => getValue row name).all isStrVal = true
    · refine ⟨by simp [deriveColumn, h1, h2], by simp [deriveColumn, h1, h2],
        by simp [deriveColumn, h1, h2], ?_⟩
      intro d mn mx hok hstat
      simp [deriveColumn, h1, h2] at hok
      subst hok
      simp at hstat
    · refine ⟨by simp [deriveColumn, h1, h2], by simp [deriveColumn, h1, h2],
        by simp [deriveColumn, h1, h2], ?_⟩
      intro d mn mx hok hstat
      simp [deriveColumn, h1, h2] at hok

/-- Witness for C6 at a concrete column with values 2 and the invalid
marker: the column is NUMERICAL and its min and max statistics equal 2, the
only non-invalid value. -/
theorem C6_derive_witness :
    (2 : ℚ) ∈ numericValues (([[("A", JSValue.num 2)], [("A", JSValue.str "NaN")]] :
        List DataRow).map fun row => getValue row "A") ∧
    (∀ q ∈ numericValues (([[("A", JSValue.num 2)], [("A", JSValue.str "NaN")]] :
        List DataRow).map fun row => getValue row "A"), 2 ≤ q ∧ q ≤ 2) := by
  have h := (C6_derive_characterization [[("A", JSValue.num 2)], [("A", JSValue.str "NaN")]] "A").2.2.2
    { name := "A", attr_type := .NUMERICAL, statistics := .numerical (some 2) (some 2) }
    2 2 (by rfl) rfl
  exact ⟨h.1.1, fun q hq => ⟨h.1.2 q hq, h.2.2 q hq⟩⟩

/-- Updating the brushed flag to the value it already has does not change a
polyline node. -/
theorem brushed_update_eta (nd : PolylineNode) (b : Bool) (h : nd.brushed = b) :
    ({ nd with brushed := b } : PolylineNode) = nd := by
  cases nd
  cases h
  rfl

/-- Splitting the axis conjunction of mcIsBrushed at a distinguished
axis. -/
theorem mcIsBrushed_middle (pre post : List DefaultAxisState) (nm : String)
    (sc : JSValue → Option ℚ) (rg : ℚ × ℚ) (sel : Option (ℚ × ℚ)) (lb : LineBrushState)
    (row : DataRow) (pathD : List Point) :
    mcIsBrushed (pre ++ ⟨nm, sc, rg, sel⟩ :: post) lb row pathD = true ↔
      ((pre.all fun ax => axisIsBrushed ax (getValue row ax.name)) = true ∧
       axisIsBrushed ⟨nm, sc, rg, sel⟩ (getValue row nm) = true ∧
       (post.all fun ax => axisIsBrushed ax (getValue row ax.name)) = true ∧
       lineBrushBrushed lb pathD = true) := by
  simp [mcIsBrushed, List.all_append, Bool.and_eq_true, and_assoc]

/-- If the changed axis's test only grew, an item selected under the old
full conjunction stays selected under the new one (all other conjuncts are
unchanged). -/
theorem mcIsBrushed_mono (pre post : List DefaultAxisState) (nm : String)
    (sc : JSValue → Option ℚ) (rg : ℚ × ℚ) (sel sel2 : Option (ℚ × ℚ)) (lb : LineBrushState)
    (row : DataRow) (pathD : List Point)
    (h : ∀ v, axisIsBrushed ⟨nm, sc, rg, sel⟩ v = true → axisIsBrushed ⟨nm, sc, rg, sel2⟩ v = true)
    (hold : mcIsBrushed (pre ++ ⟨nm, sc, rg, sel⟩ :: post) lb row pathD = true) :
    mcIsBrushed (pre ++ ⟨nm, sc, rg, sel2⟩ :: post) lb row pathD = true := by
  rw [mcIsBrushed_middle] at hold ⊢
  exact ⟨hold.1, h _ hold.2.1, hold.2.2.1, hold.2.2.2⟩

/-- C1: whenever the brushed flags entering a recomputation pass agree with
the full old conjunction (every axis AND the line brush), and the direction
hint passed to ParallelCoordinates.brush is accurate for the changed axis
(under EXTEND that axis's test only grew, under SHRINK it only shrank),
then after the pass every polyline's brushed flag equals the full new
conjunction over all axes and the line brush — in particular the EXTEND
pass re-tests previously unselected items against the full AND, not only
the changed axis. -/
theorem C1_brush_invariant
    (pre post : List DefaultAxisState) (nm : String) (sc : JSValue → Option ℚ) (rg : ℚ × ℚ)
    (sel sel2 : Option (ℚ × ℚ)) (lb : LineBrushState) (dir : Option BRUSHING_DIRECTION)
    (nodes : List PolylineNode)
    (hpre : ∀ nd ∈ nodes, nd.brushed =
      mcIsBrushed (pre ++ ⟨nm, sc, rg, sel⟩ :: post) lb nd.datum nd.pathD)
    (hext : dir = some .EXTEND →
      ∀ v, axisIsBrushed ⟨nm, sc, rg, sel⟩ v = true → axisIsBrushed ⟨nm, sc, rg, sel2⟩ v = true)
    (hshr : dir = some .SHRINK →
      ∀ v, axisIsBrushed ⟨nm, sc, rg, sel2⟩ v = true → axisIsBrushed ⟨nm, sc, rg, sel⟩ v = true) :
    brushPass (mcIsBrushed (pre ++ ⟨nm, sc, rg, sel2⟩ :: post) lb) dir nodes =
      nodes.map fun nd =>
        { nd with brushed :=
            mcIsBrushed (pre ++ ⟨nm, sc, rg, sel2⟩ :: post) lb nd.datum nd.pathD } := by
  cases dir with
  | none => rfl
  | some d =>
    cases d with
    | EXTEND =>
      have hmono := hext rfl
      clear hext hshr
      revert hpre
      induction nodes with
      | nil => intro _; rfl
      | cons nd rest ih =>
        intro hpre
        have hnd := hpre nd (List.mem_cons_self nd rest)
        have ihr := ih fun x hx => hpre x (List.mem_cons_of_mem nd hx)
        simp only [brushPass, List.map_cons] at ihr ⊢
        rw [ihr]
        by_cases hb : nd.brushed = true
        · have hold : mcIsBrushed (pre ++ ⟨nm, sc, rg, sel⟩ :: post) lb nd.datum nd.pathD = true := by
            rw [← hnd]; exact hb
          have hnew := mcIsBrushed_mono pre post nm sc rg sel sel2 lb nd.datum nd.pathD hmono hold
          rw [hnew, hb]
          simp only [Bool.not_true, Bool.false_eq_true, if_false]
          congr 1
          exact (brushed_update_eta nd true hb).symm
        · have hb2 : nd.brushed = false := by
            cases hbv : nd.brushed
            · rfl
            · exact absurd hbv hb
          rw [hb2]
          simp only [Bool.not_false, if_true]
          cases hnew : mcIsBrushed (pre ++ ⟨nm, sc, rg, sel2⟩ :: post) lb nd.datum nd.pathD
          · simp only [Bool.false_eq_true, if_false]
            congr 1
            exact (brushed_update_eta nd false hb2).symm
          · simp only [if_true]
    | SHRINK =>
      have hmono := hshr rfl
      clear hext hshr
      revert hpre
      induction nodes with
      | nil => intro _; rfl
      | cons nd rest ih =>
        intro hpre
        have hnd := hpre nd (List.mem_cons_self nd rest)
        have ihr := ih fun x hx => hpre x (List.mem_cons_of_mem nd hx)
        simp only [brushPass, List.map_cons] at ihr ⊢
        rw [ihr]
        by_cases hb : nd.brushed = true
        · rw [hb]
          simp only [if_true]
          cases hnew : mcIsBrushed (pre ++ ⟨nm, sc, rg, sel2⟩ :: post) lb nd.datum nd.pathD
          · simp only [Bool.not_false, if_true]
          · simp only [Bool.not_true, Bool.false_eq_true, if_false]
            congr 1
            exact (brushed_update_eta nd true hb).symm
        · have hb2 : nd.brushed = false := by
            cases hbv : nd.brushed
            · rfl
            · exact absurd hbv hb
          have hold : mcIsBrushed (pre ++ ⟨nm, sc, rg, sel⟩ :: post) lb nd.datum nd.pathD = false := by
            rw [← hnd]; exact hb2
          have hnew : mcIsBrushed (pre ++ ⟨nm, sc, rg, sel2⟩ :: post) lb nd.datum nd.pathD = false := by
            cases hnv : mcIsBrushed (pre ++ ⟨nm, sc, rg, sel2⟩ :: post) lb nd.datum nd.pathD
            · rfl
            · exact absurd (mcIsBrushed_mono pre post nm sc rg sel2 sel lb nd.datum nd.pathD
                hmono hnv) (by rw [hold]; exact fun hcon => Bool.true_eq_false.mp hcon.symm)
          rw [hb2, hnew]
          simp only [Bool.false_eq_true, if_false]
          congr 1
          exact (brushed_update_eta nd false hb2).symm

/-- Witness for C1: clearing the single axis's selection (an accurate
EXTEND, the selection set grew to everything) re-tests the unselected node
against the full conjunction and marks it brushed. -/
theorem C1_brush_invariant_witness :
    brushPass (mcIsBrushed [⟨"Speed", linearDomainToRange 0 100 300 0, (300, 0), none⟩]
        lineBrushInit) (some .EXTEND) [c1Node] =
      [{ c1Node with brushed := true }] := by
  have h := C1_brush_invariant [] [] "Speed" (linearDomainToRange 0 100 300 0) (300, 0)
    (some (150, 300)) none lineBrushInit (some .EXTEND) [c1Node]
    (by intro nd hnd
        rw [List.mem_singleton] at hnd
        subst hnd
        rfl)
    (by intro _ v _
        rfl)
    (by intro hcon
        simp at hcon)
  rw [List.nil_append] at h
  rw [h]
  rfl

/-- C8 (amended): the line brush selects every path while idle — including
after cancel, which resets the started/ended/visible flags, returning the
brush to idle, but retains the endpoint coordinates rather than clearing
them — and once two distinct endpoints are committed by process(p1) then
process(p2), the membership test returns true exactly when the brush
segment p1-p2 geometrically intersects the item's rendered path. -/
theorem C8_lineBrush_roundtrip (path : List Point) (s : LineBrushState) (p1 p2 : Point)
    (_hne : p1 ≠ p2) :
    lineBrushBrushed lineBrushInit path = true ∧
    (lineBrushCancel s).started = false ∧
    (lineBrushCancel s).ended = false ∧
    (lineBrushCancel s).visible = false ∧
    lineBrushBrushed (lineBrushCancel s) path = true ∧
    (lineBrushCancel s).startP = s.startP ∧
    (lineBrushCancel s).endP = s.endP ∧
    lineBrushBrushed (lineBrushProcess (lineBrushProcess lineBrushInit p1) p2) path =
      pathIntersectsSegment path p1 p2 := by
  exact ⟨rfl, rfl, rfl, rfl, rfl, rfl, rfl, rfl⟩

/-- Witness for C8: with the brush committed from (0,0) to (2,2), a path
crossing the segment is selected and a disjoint path is not. -/
theorem C8_lineBrush_witness :
    lineBrushBrushed (lineBrushProcess (lineBrushProcess lineBrushInit
        { x := 0, y := 0 }) { x := 2, y := 2 })
      [{ x := 0, y := 2 }, { x := 2, y := 0 }] = true ∧
    lineBrushBrushed (lineBrushProcess (lineBrushProcess lineBrushInit
        { x := 0, y := 0 }) { x := 2, y := 2 })
      [{ x := 5, y := 0 }, { x := 6, y := 1 }] = false := by
  have h1 := (C8_lineBrush_roundtrip [{ x := 0, y := 2 }, { x := 2, y := 0 }]
    lineBrushInit { x := 0, y := 0 } { x := 2, y := 2 }
    (by simp [Point.mk.injEq])).2.2.2.2.2.2.2
  have h2 := (C8_lineBrush_roundtrip [{ x := 5, y := 0 }, { x := 6, y := 1 }]
    lineBrushInit { x := 0, y := 0 } { x := 2, y := 2 }
    (by simp [Point.mk.injEq])).2.2.2.2.2.2.2
  rw [h1, h2]
  constructor
  · norm_num [pathIntersectsSegment, pathSegments, segmentsIntersect, cross3, onSegment]
  · norm_num [pathIntersectsSegment, pathSegments, segmentsIntersect, cross3, onSegment]

/-- Counterexample for C8: cancel after committing (1,2)-(3,4) returns the
brush to idle but does not clear the endpoints — they still hold (1,2) and
(3,4), not the origin. -/
theorem C8_cancel_counterexample :
    (lineBrushCancel (lineBrushProcess (lineBrushProcess lineBrushInit
        { x := 1, y := 2 }) { x := 3, y := 4 })).startP = { x := 1, y := 2 } ∧
    (lineBrushCancel (lineBrushProcess (lineBrushProcess lineBrushInit
        { x := 1, y := 2 }) { x := 3, y := 4 })).endP = { x := 3, y := 4 } ∧
    ({ x := 1, y := 2 } : Point) ≠ { x := 0, y := 0 } ∧
    ({ x := 3, y := 4 } : Point) ≠ { x := 0, y := 0 } := by
  refine ⟨rfl, rfl, by simp [Point.mk.injEq], by simp [Point.mk.injEq]⟩

/-- C5 (amended): when the prepared replacement dataset derives, for an
attribute name that already exists, a type differing from the existing
descriptor, setRows throws the schema-violation error (which no caller
catches) and leaves the prior dimension descriptors and axis order
unmodified — but the stored rows have already been replaced before the
check, so the data field is mutated even on failure. -/
theorem C5_setRows_type_change (st : PCState) (rows : List DataRow)
    (columns : List Dimension) (modifiedRows : List DataRow) (e : String)
    (hprep : prepareData rows = .ok (columns, modifiedRows))
    (herr : firstTypeError st.dimensions columns = some e) :
    setRows st rows = ({ st with data := modifiedRows }, some e) ∧
    (setRows st rows).1.dimensions = st.dimensions ∧
    (setRows st rows).1.axisOrder = st.axisOrder ∧
    (setRows st rows).1.data = modifiedRows := by
  have h : setRows st rows = ({ st with data := modifiedRows }, some e) := by
    simp only [setRows, hprep, herr]
  exact ⟨h, by rw [h], by rw [h], by rw [h]⟩

/-- Witness for C5: updating c5OldState with rows where X became nominal
throws and leaves dimensions and axis order intact while the data field now
holds the new rows. -/
theorem C5_setRows_witness :
    (setRows c5OldState c5NewRows).1.dimensions = c5OldState.dimensions ∧
    (setRows c5OldState c5NewRows).1.axisOrder = c5OldState.axisOrder ∧
    (setRows c5OldState c5NewRows).1.data = c5ModifiedRows ∧
    (setRows c5OldState c5NewRows).2.isSome = true := by
  have h := C5_setRows_type_change c5OldState c5NewRows c5Columns c5ModifiedRows
    ("PAVEDJS: setRows must not change attribute type from numerical to nominal or vice versa (X).")
    (by rfl) (by rfl)
  exact ⟨h.2.1, h.2.2.1, h.2.2.2, by rw [h.1]; rfl⟩

/-- Counterexample for C5: on the failing update the previously stored
state is not left fully unmodified — the data field is replaced before the
type check throws. -/
theorem C5_setRows_counterexample :
    (setRows c5OldState c5NewRows).2.isSome = true ∧
    (setRows c5OldState c5NewRows).1.dimensions = c5OldState.dimensions ∧
    (setRows c5OldState c5NewRows).1.data ≠ c5OldState.data := by
  refine ⟨by rfl, by rfl, ?_⟩
  have hdata : (setRows c5OldState c5NewRows).1.data = c5ModifiedRows := by rfl
  rw [hdata]
  decide


/-- Stable insertion by key produces a permutation of consing. -/
theorem insertByKey_perm (key : String → ℚ) (x : String) (l : List String) :
    List.Perm (insertByKey key x l) (x :: l) := by
  induction l with
  | nil => exact List.Perm.refl [x]
  | cons y ys ih =>
    by_cases h : key x ≤ key y
    · simp only [insertByKey, if_pos h]
      exact List.Perm.refl _
    · simp only [insertByKey, if_neg h]
      exact (ih.cons y).trans (List.Perm.swap x y ys)

/-- The drag comparator sort permutes the dimension list. -/
theorem sortByKey_perm (key : String → ℚ) (l : List String) :
    List.Perm (sortByKey key l) l := by
  induction l with
  | nil => exact List.Perm.refl []
  | cons x xs ih => exact (insertByKey_perm key x (sortByKey key xs)).trans (ih.cons x)

/-- Stable insertion preserves ascending-by-key ordering. -/
theorem insertByKey_pairwise (key : String → ℚ) (x : String) (l : List String)
    (h : l.Pairwise fun a b => key a ≤ key b) :
    (insertByKey key x l).Pairwise fun a b => key a ≤ key b := by
  induction l with
  | nil => simp [insertByKey]
  | cons y ys ih =>
    rcases List.pairwise_cons.mp h with ⟨hy, hys⟩
    by_cases hx : key x ≤ key y
    · simp only [insertByKey, if_pos hx]
      refine List.pairwise_cons.mpr ⟨?_, h⟩
      intro b hb
      rcases List.mem_cons.mp hb with hb | hb
      · rw [hb]; exact hx
      · exact le_trans hx (hy b hb)
    · simp only [insertByKey, if_neg hx]
      refine List.pairwise_cons.mpr ⟨?_, ih hys⟩
      intro b hb
      have hb2 := (insertByKey_perm key x ys).mem_iff.mp hb
      rcases List.mem_cons.mp hb2 with hb2 | hb2
      · rw [hb2]; exact le_of_not_le hx
      · exact hy b hb2

/-- The drag comparator sort leaves the dimension list ascending by the
effective position key. -/
theorem sortByKey_pairwise (key : String → ℚ) (l : List String) :
    (sortByKey key l).Pairwise fun a b => key a ≤ key b := by
  induction l with
  | nil => simp [sortByKey]
  | cons x xs ih => exact insertByKey_pairwise key x _ ih

/-- Writing this.dragging[dim] makes a subsequent read return the written
value. -/
theorem lookupDrag_setDrag (dr : List (String × ℚ)) (k : String) (v : ℚ) :
    lookupDrag (setDrag dr k v) k = some v := by
  induction dr with
  | nil => simp [setDrag, lookupDrag]
  | cons kv rest ih =>
    obtain ⟨k1, v1⟩ := kv
    by_cases h : k1 = k
    · simp [setDrag, h, lookupDrag]
    · simp [setDrag, h, lookupDrag, ih]

/-- C7 (amended): position(name) is the live drag position when the axis is
mid-drag and the positional-scale position otherwise; a drag-move stores
the pointer x clamped to [0, options.width] (the full chart width including
padding — not the canvas width), re-sorts the dimension list stably by the
axes' effective positions, and reassigns the xScale domain to the new
order. -/
theorem C7_position_dragMove (st : PCDragState) (dim : String) (eventX : ℚ) :
    (∀ px, lookupDrag st.dragging dim = some px → pcPosition st dim = some px) ∧
    (lookupDrag st.dragging dim = none →
      pcPosition st dim = scalePointPos st.xScaleDomain 0 st.canvasWidth 0 dim) ∧
    lookupDrag (dragMove st dim eventX).dragging dim = some (min st.width (max 0 eventX)) ∧
    List.Perm (dragMove st dim eventX).dimensions st.dimensions ∧
    (dragMove st dim eventX).dimensions.Pairwise (fun a b =>
      positionKey { st with dragging := setDrag st.dragging dim (min st.width (max 0 eventX)) } a ≤
      positionKey { st with dragging := setDrag st.dragging dim (min st.width (max 0 eventX)) } b) ∧
    (dragMove st dim eventX).xScaleDomain = (dragMove st dim eventX).dimensions := by
  refine ⟨?_, ?_, ?_, ?_, ?_, rfl⟩
  · intro px h
    simp [pcPosition, h]
  · intro h
    simp [pcPosition, h]
  · exact lookupDrag_setDrag st.dragging dim (min st.width (max 0 eventX))
  · exact sortByKey_perm _ st.dimensions
  · exact sortByKey_pairwise _ st.dimensions

/-- Witness for C7 at the default chart geometry: axis A sits at scale
position 0 while not dragged, a drag of B to pointer x 1050 stores 1050,
and the xScale domain is reassigned to the re-sorted dimension list. -/
theorem C7_position_dragMove_witness :
    pcPosition c7State "A" = some 0 ∧
    lookupDrag (dragMove c7State "B" 1050).dragging "B" = some 1050 ∧
    (dragMove c7State "B" 1050).xScaleDomain = (dragMove c7State "B" 1050).dimensions := by
  refine ⟨?_, ?_, (C7_position_dragMove c7State "B" 1050).2.2.2.2.2⟩
  · have h := (C7_position_dragMove c7State "A" 0).2.1 rfl
    rw [h]
    norm_num [c7State, scalePointPos, domainIndex]
  · have h := (C7_position_dragMove c7State "B" 1050).2.2.1
    rw [h]
    norm_num [c7State]

/-- Counterexample for C7: with the default options (chart width 1100,
canvas width 990) a drag-move to pointer x 1050 stores the unclamped value
1050, outside the canvas bounds [0, 990] — the clamp is against the full
chart width, not the canvas. -/
theorem C7_clamp_counterexample :
    lookupDrag (dragMove c7State "B" 1050).dragging "B" = some 1050 ∧
    c7State.canvasWidth = 990 ∧ ¬((1050 : ℚ) ≤ 990) := by
  refine ⟨?_, rfl, by norm_num⟩
  have h := lookupDrag_setDrag c7State.dragging "B" (min c7State.width (max 0 1050))
  rw [show (dragMove c7State "B" 1050).dragging =
      setDrag c7State.dragging "B" (min c7State.width (max 0 1050)) from rfl, h]
  norm_num [c7State]


/-- Reading a key that a row does not contain skips the row's own bindings
and falls through to the appended ones. -/
theorem getValue_append_of_hasKey_false (row l : DataRow) (key : String)
    (h : hasKey row key = false) : getValue (row ++ l) key = getValue l key := by
  induction row with
  | nil => rfl
  | cons kv rest ih =>
    obtain ⟨k, v⟩ := kv
    simp only [hasKey, Bool.or_eq_false_iff, decide_eq_false_iff_not] at h
    simp only [List.cons_append, getValue, if_neg h.1]
    exact ih h.2

/-- For rows without any ID key, the indexed insertIDs loop stores the row
index as the ID of every row. -/
theorem insertIDsAux_map_getValue (rows : List DataRow) (i : ℕ)
    (h : ∀ r ∈ rows, hasIDKey r = false) :
    (insertIDsAux i rows).map (fun r => getValue r "ID") =
      (List.range' i rows.length).map fun n : ℕ => JSValue.num (n : ℚ) := by
  induction rows generalizing i with
  | nil => rfl
  | cons row rest ih =>
    have hrow := h row (List.mem_cons_self row rest)
    have hID : hasKey row "ID" = false := by
      simp only [hasIDKey, Bool.or_eq_false_iff] at hrow
      exact hrow.1.1
    simp only [insertIDsAux, hrow, Bool.false_eq_true, if_false, List.map_cons,
      List.length_cons, List.range'_succ]
    congr 1
    · rw [getValue_append_of_hasKey_false row _ "ID" hID]
      simp [getValue]
    · exact ih (i + 1) fun r hr => h r (List.mem_cons_of_mem row hr)

/-- C10: for a nonempty dataset in which no row carries an "ID", "id" or
"Id" key, a successful prepareData assigns each row the ID equal to its
index in the input sequence (hence the IDs are pairwise distinct) and
prepends a generated "ID" column that is derived as an ordinary NUMERICAL
attribute at the head of the column list. -/
theorem C10_prepareData_ids (rows : List DataRow) (cols : List Dimension)
    (rows2 : List DataRow)
    (hne : rows ≠ [])
    (hnoid : ∀ r ∈ rows, hasIDKey r = false)
    (hok : prepareData rows = .ok (cols, rows2)) :
    rows2.map (fun r => getValue r "ID") =
      (List.range rows.length).map (fun n : ℕ => JSValue.num (n : ℚ)) ∧
    (rows2.map fun r => getValue r "ID").Nodup ∧
    ∃ d rest, cols = d :: rest ∧ d.name = "ID" ∧ d.attr_type = .NUMERICAL := by
  have hgen : (insertIDs rows).1 = true := by
    cases rows with
    | nil => exact absurd rfl hne
    | cons r0 rrest =>
      simp [insertIDs, List.any_cons, hnoid r0 (List.mem_cons_self r0 rrest)]
  rw [prepareData] at hok
  rw [hgen] at hok
  simp only [if_true] at hok
  cases hd : deriveColumnMetaData ("ID" :: initColumnsFromRows rows) (insertIDs rows).2 with
  | error e =>
    rw [hd] at hok
    exact absurd hok (by simp)
  | ok cs =>
    rw [hd] at hok
    simp only [Except.ok.injEq, Prod.mk.injEq] at hok
    obtain ⟨hcols, hrows2⟩ := hok
    have hmap : rows2.map (fun r => getValue r "ID") =
        (List.range' 0 rows.length).map fun n : ℕ => JSValue.num (n : ℚ) := by
      rw [← hrows2]
      exact insertIDsAux_map_getValue rows 0 hnoid
    refine ⟨by rw [hmap, List.range_eq_range'], ?_, ?_⟩
    · rw [hmap]
      refine List.Nodup.map ?_ (List.nodup_range' 0 rows.length)
      intro a b hab
      simpa using hab
    · rw [deriveColumnMetaData, mapExcept] at hd
      cases hid : deriveColumn (insertIDs rows).2 "ID" with
      | error e =>
        rw [hid] at hd
        exact absurd hd (by simp)
      | ok d0 =>
        rw [hid] at hd
        cases hrest : mapExcept (deriveColumn (insertIDs rows).2) (initColumnsFromRows rows) with
        | error e =>
          rw [hrest] at hd
          exact absurd hd (by simp)
        | ok ds =>
          rw [hrest] at hd
          simp only [Except.ok.injEq] at hd
          refine ⟨d0, ds, by rw [← hcols, ← hd], ?_, ?_⟩ <;>
          · have hall : (rows2.map fun r => getValue r "ID").all isNumOrNaN = true := by
              rw [hmap, List.all_eq_true]
              intro x hx
              obtain ⟨n, -, rfl⟩ := List.mem_map.mp hx
              rfl
            rw [deriveColumn, hrows2] at hid
            simp only [hall, eq_self_iff_true, if_true, Except.ok.injEq] at hid
            rw [← hid]


/-- Witness for C10: one row without an ID key receives ID 0, and
prepareData prepends the generated NUMERICAL "ID" column. -/
theorem C10_prepareData_ids_witness :
    ([[("A", JSValue.num 5), ("ID", JSValue.num 0)]] : List DataRow).map
        (fun r => getValue r "ID") =
      (List.range 1).map (fun n : ℕ => JSValue.num (n : ℚ)) ∧
    ∃ d rest,
      ([{ name := "ID", attr_type := .NUMERICAL, statistics := .numerical (some 0) (some 0) },
        { name := "A", attr_type := .NUMERICAL, statistics := .numerical (some 5) (some 5) }] :
          List Dimension) = d :: rest ∧ d.name = "ID" ∧ d.attr_type = .NUMERICAL := by
  have h := C10_prepareData_ids [[("A", JSValue.num 5)]]
    [{ name := "ID", attr_type := .NUMERICAL, statistics := .numerical (some 0) (some 0) },
     { name := "A", attr_type := .NUMERICAL, statistics := .numerical (some 5) (some 5) }]
    [[("A", JSValue.num 5), ("ID", JSValue.num 0)]]
    (by decide) (by decide) (by rfl)
  exact ⟨h.1, h.2.2⟩


end Paved
